import Mathlib

/-
  Shallow embedding of the GameChanger GitHub-CLI gateway and MCP settings
  store:
    * src/app/routes/api.github-cli-exec.ts  (namespace GhExec)
    * src/unnamed/part_000, the status loader (namespace GhStatus)
    * src/app/lib/stores/mcp.ts              (namespace MCP)
  External effects (execSync, localStorage, the discovery fetch) are
  modelled as explicit oracle parameters; JSON.parse is modelled by a
  concrete parser over a JSON value tree (integers only, no unicode
  escapes; inputs outside that subset are treated as parse failures).
-/

/-- JSON value tree, the model of what JSON.parse returns on success. -/
inductive Json where
  | jnull : Json
  | bool (b : Bool) : Json
  | num (n : Nat) : Json
  | str (s : String) : Json
  | arr (elems : List Json) : Json
  | obj (fields : List (String × Json)) : Json

/-- Left brace character, written by code point. -/
def lbrace : Char := Char.ofNat 123

/-- Right brace character, written by code point. -/
def rbrace : Char := Char.ofNat 125

/-- Skip JSON whitespace (space, tab, newline, carriage return). -/
def skipWs : List Char → List Char
  | c :: cs =>
    if c = ' ' ∨ c = '\t' ∨ c = '\n' ∨ c = '\r' then skipWs cs else c :: cs
  | [] => []

/-- Read the body of a JSON string after its opening quote, decoding the
basic escapes; returns the decoded characters and the remaining input. -/
def pStrChars : Nat → List Char → Option (List Char × List Char)
  | 0, _ => none
  | _ + 1, [] => none
  | f + 1, c :: cs =>
    if c = '"' then some ([], cs)
    else if c = '\\' then
      match cs with
      | e :: cs2 =>
        let dec : Option Char :=
          if e = '"' then some '"'
          else if e = '\\' then some '\\'
          else if e = '/' then some '/'
          else if e = 'n' then some '\n'
          else if e = 't' then some '\t'
          else if e = 'r' then some '\r'
          else none
        match dec with
        | some d =>
          match pStrChars f cs2 with
          | some (r, rest) => some (d :: r, rest)
          | none => none
        | none => none
      | [] => none
    else
      match pStrChars f cs with
      | some (r, rest) => some (c :: r, rest)
      | none => none

/-- Read a run of decimal digits into a Nat accumulator. -/
def readNat (acc : Nat) : List Char → Nat × List Char
  | c :: cs =>
    if c.isDigit then readNat (acc * 10 + (c.toNat - 48)) cs else (acc, c :: cs)
  | [] => (acc, [])

mutual

/-- Parse one JSON value (fuel-bounded recursive descent). -/
def pVal : Nat → List Char → Option (Json × List Char)
  | 0, _ => none
  | f + 1, cs =>
    match skipWs cs with
    | [] => none
    | 'n' :: 'u' :: 'l' :: 'l' :: rest => some (Json.jnull, rest)
    | 't' :: 'r' :: 'u' :: 'e' :: rest => some (Json.bool true, rest)
    | 'f' :: 'a' :: 'l' :: 's' :: 'e' :: rest => some (Json.bool false, rest)
    | c :: rest =>
      if c = '"' then
        match pStrChars (f + 1) rest with
        | some (r, rest2) => some (Json.str (String.mk r), rest2)
        | none => none
      else if c = lbrace then
        match skipWs rest with
        | [] => none
        | c2 :: rest2 =>
          if c2 = rbrace then some (Json.obj [], rest2)
          else
            match pFields f (c2 :: rest2) with
            | some (fs, rest3) => some (Json.obj fs, rest3)
            | none => none
      else if c = '[' then
        match skipWs rest with
        | [] => none
        | c2 :: rest2 =>
          if c2 = ']' then some (Json.arr [], rest2)
          else
            match pElems f (c2 :: rest2) with
            | some (vs, rest3) => some (Json.arr vs, rest3)
            | none => none
      else if c.isDigit then
        let p := readNat 0 (c :: rest)
        some (Json.num p.1, p.2)
      else none

/-- Parse the fields of a JSON object, consuming the closing brace. -/
def pFields : Nat → List Char → Option (List (String × Json) × List Char)
  | 0, _ => none
  | f + 1, cs =>
    match cs with
    | [] => none
    | c :: rest =>
      if c = '"' then
        match pStrChars (f + 1) rest with
        | some (k, rest2) =>
          match skipWs rest2 with
          | ':' :: rest3 =>
            match pVal f rest3 with
            | some (v, rest4) =>
              match skipWs rest4 with
              | ',' :: rest5 =>
                match pFields f (skipWs rest5) with
                | some (fs, rest6) => some ((String.mk k, v) :: fs, rest6)
                | none => none
              | c6 :: rest6 =>
                if c6 = rbrace then some ([(String.mk k, v)], rest6) else none
              | [] => none
            | none => none
          | _ => none
        | none => none
      else none

/-- Parse the elements of a JSON array, consuming the closing bracket. -/
def pElems : Nat → List Char → Option (List Json × List Char)
  | 0, _ => none
  | f + 1, cs =>
    match pVal f cs with
    | some (v, rest) =>
      match skipWs rest with
      | ',' :: rest2 =>
        match pElems f rest2 with
        | some (vs, rest3) => some (v :: vs, rest3)
        | none => none
      | ']' :: rest2 => some ([v], rest2)
      | _ => none
    | none => none

end

/-- Model of JSON.parse: parse a whole string as one JSON value, with
nothing but whitespace allowed after it; `none` models a thrown
SyntaxError. -/
def parseJson (s : String) : Option Json :=
  let cs := s.toList
  match pVal (cs.length + 1) cs with
  | some (j, rest) => if skipWs rest = [] then some j else none
  | none => none

/-- JavaScript truthiness of a field value (`none` models `undefined`). -/
def jsTruthy : Option Json → Bool
  | none => false
  | some Json.jnull => false
  | some (Json.bool b) => b
  | some (Json.num n) => decide (n ≠ 0)
  | some (Json.str s) => decide (s ≠ "")
  | some (Json.arr _) => true
  | some (Json.obj _) => true

/-- JavaScript `a || b` on field values. -/
def jsOr (a b : Option Json) : Option Json := if jsTruthy a then a else b

/-- JavaScript property access `v.k`: a lookup on objects, `undefined`
(here `none`) on every other non-null value.  Access on `null` throws and
is handled at each call site. -/
def jsGetField : Json → String → Option Json
  | Json.obj fs, k => fs.lookup k
  | _, _ => none

/-- Model of JavaScript String.prototype.startsWith, as a character-list
traversal. -/
def beginsWith : List Char → List Char → Bool
  | _, [] => true
  | [], _ :: _ => false
  | c :: cs, p :: ps => c = p && beginsWith cs ps

/-- JavaScript `s.startsWith(pre)`. -/
def jsStartsWith (s pre : String) : Bool := beginsWith s.toList pre.toList

/-- JavaScript `s.toLowerCase()` (ASCII, which covers every command verb). -/
def jsToLower (s : String) : String := String.mk (s.toList.map Char.toLower)

/-- JavaScript `s.trim()`: strip whitespace from both ends. -/
def jsTrim (s : String) : String :=
  String.mk (((s.toList.dropWhile Char.isWhitespace).reverse.dropWhile
    Char.isWhitespace).reverse)

/-- Quote a path for the command line, the template `"path"` from both
route files. -/
def quoteStr (s : String) : String := "\"" ++ s ++ "\""

/-- JavaScript `args.join(' ')`. -/
def joinSpace (args : List String) : String := String.intercalate " " args

/-- JavaScript object spread `\x7b...process.env, ...env\x7d`: ambient
environment with the request overrides winning on key collision (under
association-list lookup, where the first binding wins). -/
def mergeEnv (penv env : List (String × String)) : List (String × String) :=
  env ++ penv.filter (fun p => (env.lookup p.1).isNone)

/-- Per-platform executable path and working directory, the
GITHUB_CLI_CONFIG table duplicated in both route files. -/
structure PlatformConfig where
  path : String
  cwd : String
deriving DecidableEq

/-- Windows entry of GITHUB_CLI_CONFIG. -/
def ghWindows : PlatformConfig :=
  { path := "C:\\users\\neal7\\devtools\\github cli\\bin\\gh.exe",
    cwd := "C:\\users\\neal7\\devtools\\github cli" }

/-- Linux entry of GITHUB_CLI_CONFIG. -/
def ghLinux : PlatformConfig := { path := "/usr/local/bin/gh", cwd := "/home" }

/-- macOS entry of GITHUB_CLI_CONFIG. -/
def ghMacos : PlatformConfig := { path := "/usr/local/bin/gh", cwd := "/Users" }

/-- The static GITHUB_CLI_CONFIG lookup. -/
def GITHUB_CLI_CONFIG (platform : String) : PlatformConfig :=
  if platform = "windows" then ghWindows
  else if platform = "linux" then ghLinux
  else ghMacos

/-- Server-side getPlatform: hard-coded to windows in both route files. -/
def getPlatform : String := "windows"

/-- The resolved platform configuration used by both routes. -/
def ghConfig : PlatformConfig := GITHUB_CLI_CONFIG getPlatform

/-- Outcome of one execSync call, the oracle answer for a spawned
process: success with captured stdout, or a thrown error carrying
`error.stdout` and `error.message`. -/
inductive SysOutcome where
  | ok (output : String) : SysOutcome
  | err (stdout : String) (message : String) : SysOutcome
deriving DecidableEq

/-- Behaviour of the host system: maps a full command line, a merged
environment and a working directory to the execSync outcome. -/
def SysModel : Type := String → List (String × String) → String → SysOutcome

namespace GhExec

/-- GitHubCLIExecRequest from src/app/routes/api.github-cli-exec.ts, after
the destructuring defaults for args, env and cwd. -/
structure ExecRequest where
  command : String
  args : List String := []
  env : List (String × String) := []
  cwd : Option String := none

/-- Runtime shape of the `user` field set by the auth chaining: plain
JavaScript property reads, so each field is a JSON value or undefined. -/
structure User where
  login : Option Json
  name : Option Json

/-- GitHubCLIExecResponse from src/app/routes/api.github-cli-exec.ts. -/
structure ExecResponse where
  success : Bool
  command : String
  output : String
  error : Option String := none
  version : Option String := none
  user : Option User := none

/-- One call of the executeGitHubCLICommand helper, recorded so that
claims about spawned processes can observe the invocations. -/
structure Invocation where
  command : String
  args : List String
  env : List (String × String)
  cwd : Option String
deriving DecidableEq

/-- JavaScript `cwd || config.cwd`. -/
def cwdOf (cwd : Option String) : String :=
  match cwd with
  | some c => if c = "" then ghConfig.cwd else c
  | none => ghConfig.cwd

/-- The full command line `"path" command args...` built by the exec
route helper (the verb is included here, unlike the status route). -/
def fullCmd (command : String) (args : List String) : String :=
  quoteStr ghConfig.path ++ " " ++ command ++ " " ++ joinSpace args

/-- The echoed command string of every response. -/
def echoCmd (command : String) (args : List String) : String :=
  command ++ " " ++ joinSpace args

/-- executeGitHubCLICommand from src/app/routes/api.github-cli-exec.ts:
build the command line, merge the environment, run execSync (the `sys`
oracle) and fold the try/catch into an ExecResponse. -/
def executeGitHubCLICommand (sys : SysModel) (penv : List (String × String))
    (command : String) (args : List String) (env : List (String × String))
    (cwd : Option String) : ExecResponse :=
  match sys (fullCmd command args) (mergeEnv env penv) (cwdOf cwd) with
  | SysOutcome.ok output =>
    { success := true, command := echoCmd command args, output := jsTrim output }
  | SysOutcome.err stdout message =>
    { success := false, command := echoCmd command args, output := stdout,
      error := some (if message = "" then "Command execution failed" else message) }

/-- The allowlist of command verbs from the exec route. -/
def allowedCommands : List String :=
  ["version", "auth", "repo", "issue", "pr", "workflow", "api", "gist",
   "secret", "ssh-key"]

/-- The validation check: the lower-cased command starts with some
allowlisted verb. -/
def isAllowed (command : String) : Bool :=
  allowedCommands.any (fun cmd => jsStartsWith (jsToLower command) cmd)

/-- Single-quote character, written by code point. -/
def sq : String := String.mk [Char.ofNat 39]

/-- The rejection message for a disallowed command. -/
def notAllowedMsg (command : String) : String :=
  "Command " ++ sq ++ command ++ sq ++ " is not allowed for security reasons"

/-- The model of `result.output.match (gh version S)` with a non-space
group: leftmost occurrence of the literal `gh version ` followed by at
least one non-whitespace character; returns the maximal non-whitespace
token after the literal. -/
def extractVersionAux : List Char → Option String
  | [] => none
  | c :: rest =>
    match c :: rest with
    | 'g' :: 'h' :: ' ' :: 'v' :: 'e' :: 'r' :: 's' :: 'i' :: 'o' :: 'n' :: ' ' :: after =>
      let tok := after.takeWhile (fun ch => ¬ ch.isWhitespace)
      if tok = [] then extractVersionAux rest else some (String.mk tok)
    | _ => extractVersionAux rest

/-- Version extraction from the version command output. -/
def extractVersion (out : String) : Option String := extractVersionAux out.toList

/-- The user extraction of the auth-status chaining: JSON.parse the
chained output inside try/catch; property access on a parsed `null`
throws and is swallowed, every other parsed value yields a user record
via plain property reads and `name || login`. -/
def userFromOutput (out : String) : Option User :=
  match parseJson out with
  | none => none
  | some Json.jnull => none
  | some u =>
    some { login := jsGetField u "login",
           name := jsOr (jsGetField u "name") (jsGetField u "login") }

/-- The POST action of src/app/routes/api.github-cli-exec.ts after body
parsing: validate against the allowlist, then dispatch on the verb with
the version and auth special cases.  Returns the response together with
the list of executeGitHubCLICommand invocations actually made (each one
spawns exactly one process). -/
def action (sys : SysModel) (penv : List (String × String))
    (req : ExecRequest) : ExecResponse × List Invocation :=
  if isAllowed req.command = false then
    ({ success := false, command := echoCmd req.command req.args, output := "",
       error := some (notAllowedMsg req.command) }, [])
  else if req.command = "version" then
    let result := executeGitHubCLICommand sys penv req.command req.args req.env req.cwd
    (if result.success then { result with version := extractVersion result.output }
     else result,
     [{ command := req.command, args := req.args, env := req.env, cwd := req.cwd }])
  else if jsStartsWith req.command "auth" then
    let result := executeGitHubCLICommand sys penv req.command req.args req.env req.cwd
    if req.command = "auth status" ∧ result.success then
      let userResult := executeGitHubCLICommand sys penv "api" ["user"] req.env req.cwd
      ((if userResult.success then
          match userFromOutput userResult.output with
          | some u => { result with user := some u }
          | none => result
        else result),
       [{ command := req.command, args := req.args, env := req.env, cwd := req.cwd },
        { command := "api", args := ["user"], env := req.env, cwd := req.cwd }])
    else
      (result,
       [{ command := req.command, args := req.args, env := req.env, cwd := req.cwd }])
  else
    (executeGitHubCLICommand sys penv req.command req.args req.env req.cwd,
     [{ command := req.command, args := req.args, env := req.env, cwd := req.cwd }])

end GhExec

namespace GhStatus

/-- Runtime user record of the status response, with the optional email
read alongside login and name. -/
structure User where
  login : Option Json
  name : Option Json
  email : Option Json

/-- GitHubCLIStatusResponse from src/unnamed/part_000. -/
structure StatusResponse where
  isInstalled : Bool
  isAuthenticated : Bool
  version : Option String := none
  user : Option User := none
  error : Option String := none

/-- Result shape of the status-route executeGitHubCLICommand helper. -/
structure RunResult where
  success : Bool
  output : String
  error : Option String := none

/-- The full command line built by the status-route helper: the quoted
executable path followed by the joined args.  The `command` parameter of
the helper never appears in it. -/
def statusFullCmd (args : List String) : String :=
  quoteStr ghConfig.path ++ " " ++ joinSpace args

/-- executeGitHubCLICommand from src/unnamed/part_000: builds the command
line from the args alone, always runs in the configured cwd, and folds
the try/catch of execSync into a RunResult. -/
def executeGitHubCLICommand (sys : SysModel) (penv : List (String × String))
    (command : String) (args : List String)
    (env : List (String × String)) : RunResult :=
  match sys (statusFullCmd args) (mergeEnv env penv) ghConfig.cwd with
  | SysOutcome.ok output => { success := true, output := jsTrim output }
  | SysOutcome.err stdout message =>
    { success := false, output := stdout,
      error := some (if message = "" then "Command execution failed" else message) }

/-- User extraction of the status loader: JSON.parse inside try/catch,
property access on a parsed `null` throws and is swallowed, every other
parsed value yields login, `name || login` and email. -/
def userFromOutput (out : String) : Option User :=
  match parseJson out with
  | none => none
  | some Json.jnull => none
  | some u =>
    some { login := jsGetField u "login",
           name := jsOr (jsGetField u "name") (jsGetField u "login"),
           email := jsGetField u "email" }

/-- JavaScript `checkResult.error || fallback` on the optional error. -/
def jsOrError (e : Option String) (fallback : String) : String :=
  match e with
  | some s => if s = "" then fallback else s
  | none => fallback

/-- The GET loader of src/unnamed/part_000: run the version check; on
failure return NotInstalled; otherwise keep the raw output as the
version, run the auth-status check, and when it succeeds chain the
api-user fetch for the identity. -/
def loader (sys : SysModel) (penv : List (String × String)) : StatusResponse :=
  let checkResult := executeGitHubCLICommand sys penv "version" [] []
  if checkResult.success = false then
    { isInstalled := false, isAuthenticated := false,
      error := some (jsOrError checkResult.error "GitHub CLI not found") }
  else
    let version := checkResult.output
    let authResult := executeGitHubCLICommand sys penv "auth" ["status"] []
    if authResult.success then
      let userResult := executeGitHubCLICommand sys penv "api" ["user"] []
      let user := if userResult.success then userFromOutput userResult.output else none
      { isInstalled := true, isAuthenticated := true,
        version := some version, user := user }
    else
      { isInstalled := true, isAuthenticated := false,
        version := some version, user := none }

end GhStatus

namespace MCP

/-- ServerDefinition of one configured tool server.  The MCPConfig type
lives in src/app/lib/services/mcpService (not part of the sources);
modelled from the spec: transport type, executable path, argument list,
environment mapping and working directory, with the field names taken
from the default configuration built in src/app/lib/stores/mcp.ts. -/
structure MCPServerConfig where
  type : String
  command : String
  args : List String
  env : List (String × String)
  cwd : String
deriving DecidableEq

/-- MCPConfig: mapping from server name to its definition. -/
structure MCPConfig where
  mcpServers : List (String × MCPServerConfig)
deriving DecidableEq

/-- MCPSettings from src/app/lib/stores/mcp.ts. -/
structure MCPSettings where
  mcpConfig : MCPConfig
  maxLLMSteps : Nat
deriving DecidableEq

/-- MCPServerTools: mapping from server name to discovered tool
descriptors, opaque to the store. -/
abbrev MCPServerTools : Type := List (String × List String)

/-- The components of the JSON.stringify image of one server definition.
The JSON text layer is the standard bijection between JSON trees and
their serialized strings and is not re-modelled. -/
def serverToJson (c : MCPServerConfig) : Json :=
  Json.obj [("type", Json.str c.type),
            ("command", Json.str c.command),
            ("args", Json.arr (c.args.map Json.str)),
            ("env", Json.obj (c.env.map (fun p => (p.1, Json.str p.2)))),
            ("cwd", Json.str c.cwd)]

/-- JSON.stringify image of a whole MCPSettings record. -/
def serializeSettings (s : MCPSettings) : Json :=
  Json.obj [("mcpConfig",
             Json.obj [("mcpServers",
                        Json.obj (s.mcpConfig.mcpServers.map
                          (fun p => (p.1, serverToJson p.2))))]),
            ("maxLLMSteps", Json.num s.maxLLMSteps)]

/-- Read back a list of strings from a JSON array body. -/
def strList : List Json → Option (List String)
  | [] => some []
  | Json.str s :: rest =>
    match strList rest with
    | some l => some (s :: l)
    | none => none
  | _ => none

/-- Read back an environment mapping from a JSON object body. -/
def strPairs : List (String × Json) → Option (List (String × String))
  | [] => some []
  | (k, Json.str v) :: rest =>
    match strPairs rest with
    | some l => some ((k, v) :: l)
    | none => none
  | _ => none

/-- Read back one server definition from its JSON image. -/
def serverFromJson : Json → Option MCPServerConfig
  | Json.obj [("type", Json.str t), ("command", Json.str cm),
              ("args", Json.arr as), ("env", Json.obj es),
              ("cwd", Json.str cw)] =>
    match strList as, strPairs es with
    | some args, some env =>
      some { type := t, command := cm, args := args, env := env, cwd := cw }
    | _, _ => none
  | _ => none

/-- Read back the server mapping from its JSON image. -/
def serversFromJson : List (String × Json) → Option (List (String × MCPServerConfig))
  | [] => some []
  | (n, j) :: rest =>
    match serverFromJson j, serversFromJson rest with
    | some c, some l => some ((n, c) :: l)
    | _, _ => none

/-- JSON.parse of a persisted settings record followed by its adoption as
an MCPSettings value (the `as MCPSettings` reading of the parsed tree). -/
def deserializeSettings : Json → Option MCPSettings
  | Json.obj [("mcpConfig", Json.obj [("mcpServers", Json.obj servers)]),
              ("maxLLMSteps", Json.num n)] =>
    match serversFromJson servers with
    | some l => some { mcpConfig := { mcpServers := l }, maxLLMSteps := n }
    | none => none
  | _ => none

/-- The zustand store state of useMCPStore, with the localStorage slot at
MCP_SETTINGS_KEY carried explicitly (as the JSON tree it holds). -/
structure Store where
  isInitialized : Bool
  settings : MCPSettings
  serverTools : MCPServerTools
  error : Option String
  isUpdatingConfig : Bool
  persisted : Option Json

/-- updateSettings from src/app/lib/stores/mcp.ts, with the
updateServerConfig fetch modelled as an oracle from an MCPConfig to
either the discovered tools or a thrown failure.  The sequential model
collapses the awaited body: single-flight early return when the flag is
set; otherwise set the flag, run discovery, on success persist and adopt
the new settings and tools, on failure rethrow; the finally clause
clears the flag on both paths.  The returned Option String is the
rethrown error, none for a normal return. -/
def updateSettings (upd : MCPConfig → Except String MCPServerTools)
    (newSettings : MCPSettings) (s : Store) : Store × Option String :=
  if s.isUpdatingConfig then (s, none)
  else
    match upd newSettings.mcpConfig with
    | Except.ok tools =>
      ({ s with settings := newSettings, serverTools := tools,
                persisted := some (serializeSettings newSettings),
                isUpdatingConfig := false }, none)
    | Except.error e =>
      ({ s with isUpdatingConfig := false }, some e)

end MCP

namespace GhExec

/-- Helper: behaviour of the action on a successful version invocation. -/
theorem action_version_ok (sys : SysModel) (penv env : List (String × String))
    (cwd : Option String) (args : List String) (o : String)
    (h : sys (fullCmd "version" args) (mergeEnv env penv) (cwdOf cwd) = SysOutcome.ok o) :
    action sys penv { command := "version", args := args, env := env, cwd := cwd } =
      ({ success := true, command := echoCmd "version" args, output := jsTrim o,
         version := extractVersion (jsTrim o) },
       [{ command := "version", args := args, env := env, cwd := cwd }]) := by
  have ha : isAllowed "version" = true := by decide
  simp [action, executeGitHubCLICommand, h, ha]

/-- C1: for every ExecRequest whose command does not match an allowlist
prefix, the action returns success false, empty output and a descriptive
error, and performs no invocation at all (no process is spawned). -/
theorem exec_disallowed_rejected_without_spawn (sys : SysModel)
    (penv : List (String × String)) (req : ExecRequest)
    (h : isAllowed req.command = false) :
    action sys penv req =
      ({ success := false, command := echoCmd req.command req.args, output := "",
         error := some (notAllowedMsg req.command) }, []) := by
  simp [action, h]

/-- Witness for C1 at the concrete disallowed command rm. -/
theorem exec_disallowed_rejected_without_spawn_witness :
    isAllowed "rm" = false ∧
    action (fun _ _ _ => SysOutcome.ok "") [] { command := "rm" } =
      ({ success := false, command := echoCmd "rm" [], output := "",
         error := some (notAllowedMsg "rm") }, []) :=
  ⟨by decide, exec_disallowed_rejected_without_spawn _ _ _ (by decide)⟩

/-- C2: when the command is exactly `auth status` and the primary
invocation succeeds, the action issues a second dependent `api user`
invocation with the same env and cwd, and when that chained call succeeds
with output the JSON object with login alice and name Alice A, the outer
response carries user login alice and display name Alice A. -/
theorem exec_auth_status_chained_identity (sys : SysModel)
    (penv env : List (String × String)) (cwd : Option String) (o : String)
    (h1 : sys (fullCmd "auth status" []) (mergeEnv env penv) (cwdOf cwd) = SysOutcome.ok o)
    (h2 : sys (fullCmd "api" ["user"]) (mergeEnv env penv) (cwdOf cwd) =
      SysOutcome.ok "\x7b\"login\":\"alice\",\"name\":\"Alice A\"\x7d") :
    (action sys penv { command := "auth status", env := env, cwd := cwd }).1.user =
      some { login := some (Json.str "alice"), name := some (Json.str "Alice A") } ∧
    (action sys penv { command := "auth status", env := env, cwd := cwd }).2 =
      [{ command := "auth status", args := [], env := env, cwd := cwd },
       { command := "api", args := ["user"], env := env, cwd := cwd }] := by
  have ha : isAllowed "auth status" = true := by decide
  have hs : jsStartsWith "auth status" "auth" = true := by decide
  have hu : userFromOutput (jsTrim "\x7b\"login\":\"alice\",\"name\":\"Alice A\"\x7d") =
      some { login := some (Json.str "alice"), name := some (Json.str "Alice A") } := by rfl
  refine ⟨?_, ?_⟩ <;> simp [action, executeGitHubCLICommand, h1, h2, ha, hs, hu]

/-- Concrete system used by the C2 witness. -/
def c2sys : SysModel := fun c _ _ =>
  if c = fullCmd "api" ["user"] then
    SysOutcome.ok "\x7b\"login\":\"alice\",\"name\":\"Alice A\"\x7d"
  else SysOutcome.ok "Logged in to github.com"

/-- Witness for C2 at a concrete system model. -/
theorem exec_auth_status_chained_identity_witness :
    (action c2sys [] { command := "auth status" }).1.user =
      some { login := some (Json.str "alice"), name := some (Json.str "Alice A") } ∧
    (action c2sys [] { command := "auth status" }).2 =
      [{ command := "auth status", args := [], env := [], cwd := none },
       { command := "api", args := ["user"], env := [], cwd := none }] :=
  exec_auth_status_chained_identity c2sys [] [] none "Logged in to github.com"
    (by decide) (by decide)

/-- C3: for an `auth status` request whose primary invocation succeeded,
if the chained `api user` invocation fails or its output does not parse
as JSON, the outer response is the unmodified primary response: success
still true, user unset, and no error text from the chained failure. -/
theorem exec_auth_chain_failure_absorbed (sys : SysModel)
    (penv env : List (String × String)) (cwd : Option String) (o : String)
    (h1 : sys (fullCmd "auth status" []) (mergeEnv env penv) (cwdOf cwd) = SysOutcome.ok o)
    (h2 : (∃ so msg, sys (fullCmd "api" ["user"]) (mergeEnv env penv) (cwdOf cwd) =
             SysOutcome.err so msg) ∨
          (∃ o2, sys (fullCmd "api" ["user"]) (mergeEnv env penv) (cwdOf cwd) =
             SysOutcome.ok o2 ∧ parseJson (jsTrim o2) = none)) :
    (action sys penv { command := "auth status", env := env, cwd := cwd }).1 =
      { success := true, command := echoCmd "auth status" [], output := jsTrim o,
        error := none, version := none, user := none } := by
  have ha : isAllowed "auth status" = true := by decide
  have hs : jsStartsWith "auth status" "auth" = true := by decide
  rcases h2 with ⟨so, msg, h2⟩ | ⟨o2, h2, hp⟩
  · simp [action, executeGitHubCLICommand, h1, h2, ha, hs]
  · simp [action, executeGitHubCLICommand, h1, h2, ha, hs, userFromOutput, hp]

/-- Concrete system used by the C3 witness: the chained call fails. -/
def c3sys : SysModel := fun c _ _ =>
  if c = fullCmd "api" ["user"] then SysOutcome.err "" "api failed"
  else SysOutcome.ok "Logged in to github.com"

/-- Witness for C3 at a concrete system model with a failing chain. -/
theorem exec_auth_chain_failure_absorbed_witness :
    (action c3sys [] { command := "auth status" }).1 =
      { success := true, command := echoCmd "auth status" [],
        output := jsTrim "Logged in to github.com",
        error := none, version := none, user := none } :=
  exec_auth_chain_failure_absorbed c3sys [] [] none "Logged in to github.com"
    (by decide) (Or.inl ⟨"", "api failed", by decide⟩)

/-- The verb list as the claim words it, with key-management in place of
the ssh-key verb actually present in the source. -/
def specClaimVerbs : List String :=
  ["version", "auth", "repo", "issue", "pr", "workflow", "api", "gist",
   "secret", "key-management"]

/-- The acceptance predicate as the claim words it. -/
def specClaimAllowed (command : String) : Bool :=
  specClaimVerbs.any (fun v => jsStartsWith (jsToLower command) v)

/-- C7 counterexample: the command key-management starts with the claimed
verb key-management, so the claim demands acceptance, but the validator
of the source rejects it (its tenth verb is ssh-key, not
key-management). -/
theorem allowlist_key_management_counterexample :
    specClaimAllowed "key-management" = true ∧ isAllowed "key-management" = false := by
  constructor
  · decide
  · decide

/-- C7 amended: the validator accepts a command iff it starts,
case-insensitively, with one of version, auth, repo, issue, pr, workflow,
api, gist, secret, ssh-key; rejection is the Boolean value false, not a
thrown fault. -/
theorem allowlist_iff_fixed_verbs (c : String) :
    isAllowed c = true ↔
      (jsStartsWith (jsToLower c) "version" = true ∨
       jsStartsWith (jsToLower c) "auth" = true ∨
       jsStartsWith (jsToLower c) "repo" = true ∨
       jsStartsWith (jsToLower c) "issue" = true ∨
       jsStartsWith (jsToLower c) "pr" = true ∨
       jsStartsWith (jsToLower c) "workflow" = true ∨
       jsStartsWith (jsToLower c) "api" = true ∨
       jsStartsWith (jsToLower c) "gist" = true ∨
       jsStartsWith (jsToLower c) "secret" = true ∨
       jsStartsWith (jsToLower c) "ssh-key" = true) := by
  simp [isAllowed, allowedCommands, List.any_cons, List.any_nil,
        Bool.or_eq_true, or_assoc]

/-- C8: on a successful version invocation the gateway fills the version
field by the gh-version pattern extraction; the sample output yields
2.40.0, and when no pattern matches the version stays unset while the
response is still successful. -/
theorem exec_version_extraction :
    extractVersion "gh version 2.40.0 (2023-01-01)" = some "2.40.0" ∧
    (∀ (sys : SysModel) (penv env : List (String × String)) (cwd : Option String)
       (args : List String) (o : String),
       sys (fullCmd "version" args) (mergeEnv env penv) (cwdOf cwd) = SysOutcome.ok o →
       (action sys penv { command := "version", args := args, env := env, cwd := cwd }).1 =
         { success := true, command := echoCmd "version" args, output := jsTrim o,
           version := extractVersion (jsTrim o) }) ∧
    (∀ (sys : SysModel) (penv env : List (String × String)) (cwd : Option String)
       (args : List String) (o : String),
       sys (fullCmd "version" args) (mergeEnv env penv) (cwdOf cwd) = SysOutcome.ok o →
       extractVersion (jsTrim o) = none →
       (action sys penv { command := "version", args := args, env := env, cwd := cwd }).1.version
           = none ∧
       (action sys penv { command := "version", args := args, env := env, cwd := cwd }).1.success
           = true) := by
  refine ⟨by decide, ?_, ?_⟩
  · intro sys penv env cwd args o h
    simpa using congrArg Prod.fst (action_version_ok sys penv env cwd args o h)
  · intro sys penv env cwd args o h hn
    have := congrArg Prod.fst (action_version_ok sys penv env cwd args o h)
    simp at this
    rw [this, hn]
    exact ⟨rfl, rfl⟩

/-- Concrete system used by the C8 witness. -/
def c8sys : SysModel := fun _ _ _ => SysOutcome.ok "gh version 2.40.0 (2023-01-01)"

/-- Witness for C8 at the sample output. -/
theorem exec_version_extraction_witness :
    (action c8sys [] { command := "version" }).1 =
      { success := true, command := echoCmd "version" [],
        output := "gh version 2.40.0 (2023-01-01)", version := some "2.40.0" } :=
  (exec_version_extraction.2.1 c8sys [] [] none [] "gh version 2.40.0 (2023-01-01)"
    (by decide)).trans (by rfl)

end GhExec

namespace GhStatus

/-- C4: the status loader follows the three-state machine.  If the
version invocation fails the result is NotInstalled with the failure text
and neither version nor identity; if it succeeds but the auth-status
invocation fails the result is installed, unauthenticated, with the
version and no identity, whatever the api-user invocation would return;
if both succeed the result is installed and authenticated with the
version, and the identity exactly when the chained user fetch succeeded
and parsed. -/
theorem loader_three_state (sys : SysModel) (penv : List (String × String)) :
    (∀ so msg,
       sys (statusFullCmd []) (mergeEnv [] penv) ghConfig.cwd = SysOutcome.err so msg →
       loader sys penv =
         { isInstalled := false, isAuthenticated := false, version := none,
           user := none,
           error := some (if msg = "" then "Command execution failed" else msg) }) ∧
    (∀ o1 so msg,
       sys (statusFullCmd []) (mergeEnv [] penv) ghConfig.cwd = SysOutcome.ok o1 →
       sys (statusFullCmd ["status"]) (mergeEnv [] penv) ghConfig.cwd = SysOutcome.err so msg →
       loader sys penv =
         { isInstalled := true, isAuthenticated := false, version := some (jsTrim o1),
           user := none, error := none }) ∧
    (∀ o1 o2,
       sys (statusFullCmd []) (mergeEnv [] penv) ghConfig.cwd = SysOutcome.ok o1 →
       sys (statusFullCmd ["status"]) (mergeEnv [] penv) ghConfig.cwd = SysOutcome.ok o2 →
       loader sys penv =
         { isInstalled := true, isAuthenticated := true, version := some (jsTrim o1),
           user := (match sys (statusFullCmd ["user"]) (mergeEnv [] penv) ghConfig.cwd with
                    | SysOutcome.ok o3 => userFromOutput (jsTrim o3)
                    | SysOutcome.err _ _ => none),
           error := none }) := by
  refine ⟨?_, ?_, ?_⟩
  · intro so msg h
    by_cases hm : msg = "" <;>
      simp [loader, executeGitHubCLICommand, jsOrError, h, hm]
  · intro o1 so msg h1 h2
    simp [loader, executeGitHubCLICommand, h1, h2]
  · intro o1 o2 h1 h2
    cases hu : sys (statusFullCmd ["user"]) (mergeEnv [] penv) ghConfig.cwd <;>
      simp [loader, executeGitHubCLICommand, h1, h2, hu]

/-- Concrete system used by the C4 witness: version succeeds, auth
fails, api user would succeed. -/
def c4sys : SysModel := fun c _ _ =>
  if c = statusFullCmd [] then SysOutcome.ok " gh version 2.40.0 "
  else if c = statusFullCmd ["status"] then SysOutcome.err "" "not logged in"
  else SysOutcome.ok "\x7b\"login\":\"alice\"\x7d"

/-- Witness for C4: the middle state at a concrete system model in which
the api-user call would have succeeded. -/
theorem loader_three_state_witness :
    loader c4sys [] =
      { isInstalled := true, isAuthenticated := false,
        version := some "gh version 2.40.0", user := none, error := none } :=
  ((loader_three_state c4sys []).2.1 " gh version 2.40.0 " "" "not logged in"
    (by decide) (by decide)).trans (by rfl)

/-- C10: the command line built by the status-route process runner is the
quoted executable path followed by the joined args alone, for every
command, args and env; the command verb never enters it, so the whole
helper is insensitive to the verb, the installation check runs the bare
executable with no arguments and the authentication check runs it with
the single argument status. -/
theorem runner_command_line_omits_verb :
    (∀ (sys : SysModel) (penv : List (String × String)) (c1 c2 : String)
       (args : List String) (env : List (String × String)),
       executeGitHubCLICommand sys penv c1 args env =
         executeGitHubCLICommand sys penv c2 args env) ∧
    (∀ args, statusFullCmd args = quoteStr ghConfig.path ++ " " ++ joinSpace args) ∧
    statusFullCmd [] = "\"C:\\users\\neal7\\devtools\\github cli\\bin\\gh.exe\" " ∧
    statusFullCmd ["status"] =
      "\"C:\\users\\neal7\\devtools\\github cli\\bin\\gh.exe\" status" := by
  refine ⟨fun _ _ _ _ _ _ => rfl, fun _ => rfl, by decide, by decide⟩

end GhStatus

namespace MCP

/-- C5: updateSettings is single-flight.  In every store state with an
update already in progress, a second call returns immediately with no
error and no mutation of any field, so the state after both calls is the
state the in-flight call alone produces. -/
theorem updateSettings_single_flight (upd : MCPConfig → Except String MCPServerTools)
    (newSettings : MCPSettings) (s : Store) (h : s.isUpdatingConfig = true) :
    updateSettings upd newSettings s = (s, none) := by
  simp [updateSettings, h]

/-- Concrete store used by the C5 witness, with an update in flight. -/
def c5store : Store :=
  { isInitialized := true,
    settings := { mcpConfig := { mcpServers := [] }, maxLLMSteps := 5 },
    serverTools := [], error := none, isUpdatingConfig := true, persisted := none }

/-- Witness for C5 at a concrete in-flight store. -/
theorem updateSettings_single_flight_witness :
    updateSettings (fun _ => Except.ok [("github", ["list"])])
      { mcpConfig := { mcpServers := [] }, maxLLMSteps := 7 } c5store =
      (c5store, none) :=
  updateSettings_single_flight _ _ _ (by rfl)

/-- C6: when the discovery request of an acquired updateSettings call
fails, the prior settings, persisted record, tools and error field are
all left untouched, the failure is propagated to the caller, and the
in-progress flag is false on exit on every path the call can take. -/
theorem updateSettings_failure_preserves (upd : MCPConfig → Except String MCPServerTools)
    (newSettings : MCPSettings) (s : Store) (h : s.isUpdatingConfig = false) :
    ((updateSettings upd newSettings s).1.isUpdatingConfig = false) ∧
    (∀ e, upd newSettings.mcpConfig = Except.error e →
       updateSettings upd newSettings s = (s, some e)) := by
  obtain ⟨ini, st, tools, err, flag, p⟩ := s
  simp only at h
  subst h
  constructor
  · cases hu : upd newSettings.mcpConfig <;> simp [updateSettings, hu]
  · intro e he
    simp [updateSettings, he]

/-- Concrete store used by the C6 witness, idle before the call. -/
def c6store : Store :=
  { isInitialized := true,
    settings := { mcpConfig := { mcpServers := [] }, maxLLMSteps := 5 },
    serverTools := [], error := none, isUpdatingConfig := false, persisted := none }

/-- Witness for C6: a failing discovery leaves the store untouched and
propagates the failure. -/
theorem updateSettings_failure_preserves_witness :
    updateSettings (fun _ => Except.error "Server responded with 500")
      { mcpConfig := { mcpServers := [] }, maxLLMSteps := 7 } c6store =
      (c6store, some "Server responded with 500") :=
  (updateSettings_failure_preserves (fun _ => Except.error "Server responded with 500")
    { mcpConfig := { mcpServers := [] }, maxLLMSteps := 7 } c6store (by rfl)).2
    "Server responded with 500" (by rfl)

/-- Helper: reading back a serialized string list. -/
theorem strList_map (l : List String) : strList (l.map Json.str) = some l := by
  induction l with
  | nil => rfl
  | cons a l ih => simp [strList, ih]

/-- Helper: reading back a serialized environment mapping. -/
theorem strPairs_map (l : List (String × String)) :
    strPairs (l.map fun p => (p.1, Json.str p.2)) = some l := by
  induction l with
  | nil => rfl
  | cons a l ih => obtain ⟨k, v⟩ := a; simp [strPairs, ih]

/-- Helper: reading back one serialized server definition. -/
theorem serverFromJson_toJson (c : MCPServerConfig) :
    serverFromJson (serverToJson c) = some c := by
  obtain ⟨t, cm, args, env, cw⟩ := c
  simp [serverToJson, serverFromJson, strList_map, strPairs_map]

/-- Helper: reading back the serialized server mapping. -/
theorem serversFromJson_map (l : List (String × MCPServerConfig)) :
    serversFromJson (l.map fun p => (p.1, serverToJson p.2)) = some l := by
  induction l with
  | nil => rfl
  | cons a l ih => obtain ⟨n, c⟩ := a; simp [serversFromJson, serverFromJson_toJson, ih]

/-- C9: serializing any well-formed MCPSettings value and deserializing
the result yields the original settings. -/
theorem settings_roundtrip (s : MCPSettings) :
    deserializeSettings (serializeSettings s) = some s := by
  obtain ⟨⟨servers⟩, n⟩ := s
  simp [serializeSettings, deserializeSettings, serversFromJson_map]

end MCP
